import Mathlib

/-!
Verification of the core numeric/decision engine of the otree-game
repository against its specification.

The Python sources embedded here are:

* src/formal_model/jones_models.py — calibrate_ubar_from_v, Utility,
  SimpleAIGrowthRiskModel (c_star, T_star, total_extinction_prob, summary,
  the comparative-statics sweeps) and DynamicAIGrowthRiskModel (welfare,
  delta_star, delta_star_singularity, the two sweeps).
* src/otree/cournot_shared_risk/__init__.py — FixedPrimitives, TreatmentArm,
  hazard_components, survival_probability, tokenise and
  build_round_robin_schedule.

Python floats are modelled as real numbers.  A Python arithmetic expression
that can raise or leave the reals is modelled by the type PyFloat: an
ordinary real result, a complex result (float ** float with a negative base
and non-integral exponent returns a complex number in Python 3), or a raised
exception carrying the exception's name.
-/

/-- Result of a Python floating-point computation: a real value, a complex
number (Python's float power silently leaves the reals on a negative base
with non-integral exponent), or a raised exception. -/
inductive PyFloat where
  | real : ℝ → PyFloat
  | complex : PyFloat
  | error : String → PyFloat

/-- Sequencing of Python float computations: exceptions and complex results
propagate, a real value feeds the continuation. -/
def PyFloat.bind : PyFloat → (ℝ → PyFloat) → PyFloat
  | .real r, f => f r
  | .complex, _ => .complex
  | .error e, _ => .error e

/-- Python's binary `**` on floats.  Positive base: the real power
exp(e*log b).  Zero base: 0 for a positive exponent, 1 for exponent zero,
ZeroDivisionError for a negative exponent.  Negative base: the integer power
when the exponent is integral, otherwise Python returns a complex number. -/
noncomputable def pyPow (b e : ℝ) : PyFloat :=
  if 0 < b then .real (b ^ e)
  else if b = 0 then
    if 0 < e then .real 0
    else if e = 0 then .real 1
    else .error "ZeroDivisionError"
  else if e = (Int.floor e : ℝ) then .real (b ^ (Int.floor e : ℤ))
  else .complex

/-- Python's math.log: defined for positive arguments, otherwise it raises
a ValueError ("math domain error"). -/
noncomputable def pyLog (x : ℝ) : PyFloat :=
  if 0 < x then .real (Real.log x) else .error "ValueError: math domain error"

/-- Embedding of calibrate_ubar_from_v (jones_models.py, lines 26-51):
gamma = 1 gives target_v - log c0, otherwise
(target_v - 1/(1-gamma)) / c0 ** (gamma-1). -/
noncomputable def calibrate_ubar_from_v (c0 gamma target_v : ℝ) : PyFloat :=
  if gamma = 1 then (pyLog c0).bind fun l => .real (target_v - l)
  else
    (pyPow c0 (gamma - 1)).bind fun p =>
      if p = 0 then .error "ZeroDivisionError"
      else .real ((target_v - 1 / (1 - gamma)) / p)

/-- The Utility dataclass (jones_models.py, lines 59-85): CRRA or log
utility with level shift ubar. -/
structure Utility where
  gamma : ℝ
  ubar : ℝ

/-- Utility.u: ubar + log c when gamma = 1, else ubar + c^(1-gamma)/(1-gamma). -/
noncomputable def Utility.u (U : Utility) (c : ℝ) : PyFloat :=
  if U.gamma = 1 then (pyLog c).bind fun l => .real (U.ubar + l)
  else (pyPow c (1 - U.gamma)).bind fun p => .real (U.ubar + p / (1 - U.gamma))

/-- Utility.v: u(c) when gamma = 1, else ubar * c^(gamma-1) + 1/(1-gamma). -/
noncomputable def Utility.v (U : Utility) (c : ℝ) : PyFloat :=
  if U.gamma = 1 then U.u c
  else (pyPow c (U.gamma - 1)).bind fun p => .real (U.ubar * p + 1 / (1 - U.gamma))

/-- Parameter state of a SimpleAIGrowthRiskModel instance
(jones_models.py, lines 93-111).  The delta_ field keeps the source's
trailing underscore. -/
structure SimpleAIGrowthRiskModel where
  c0 : ℝ
  g : ℝ
  delta_ : ℝ
  gamma : ℝ
  util : Utility

/-- SimpleAIGrowthRiskModel.c_star (lines 115-124): exp(g/delta - ubar) for
gamma = 1, otherwise inner ** (1/(gamma-1)) with
inner = (1/ubar) * (g/delta + 1/(gamma-1)).  The source performs no domain
check before the fractional power. -/
noncomputable def SimpleAIGrowthRiskModel.c_star (M : SimpleAIGrowthRiskModel) : PyFloat :=
  if M.delta_ = 0 then .error "ZeroDivisionError"
  else if M.gamma = 1 then .real (Real.exp (M.g / M.delta_ - M.util.ubar))
  else if M.util.ubar = 0 then .error "ZeroDivisionError"
  else pyPow ((1 / M.util.ubar) * (M.g / M.delta_ + 1 / (M.gamma - 1))) (1 / (M.gamma - 1))

/-- SimpleAIGrowthRiskModel.T_star (lines 126-130):
(1/g) * log(c_star / c0). -/
noncomputable def SimpleAIGrowthRiskModel.T_star (M : SimpleAIGrowthRiskModel) : PyFloat :=
  M.c_star.bind fun cstar =>
    if M.g = 0 then .error "ZeroDivisionError"
    else if M.c0 = 0 then .error "ZeroDivisionError"
    else (pyLog (cstar / M.c0)).bind fun l => .real ((1 / M.g) * l)

/-- SimpleAIGrowthRiskModel.total_extinction_prob (lines 132-136):
1 - exp(-delta * T_star). -/
noncomputable def SimpleAIGrowthRiskModel.total_extinction_prob
    (M : SimpleAIGrowthRiskModel) : PyFloat :=
  M.T_star.bind fun T => .real (1 - Real.exp (-M.delta_ * T))

/-- The dictionary returned by SimpleAIGrowthRiskModel.summary
(lines 138-149). -/
structure SummaryRow where
  c_star : PyFloat
  T_star : PyFloat
  extinction_prob : PyFloat
  ubar : ℝ
  gamma : ℝ
  g : ℝ
  delta : ℝ

/-- SimpleAIGrowthRiskModel.summary (lines 138-149). -/
noncomputable def SimpleAIGrowthRiskModel.summary (M : SimpleAIGrowthRiskModel) : SummaryRow :=
  { c_star := M.c_star
    T_star := M.T_star
    extinction_prob := M.total_extinction_prob
    ubar := M.util.ubar
    gamma := M.gamma
    g := M.g
    delta := M.delta_ }

/-- SimpleAIGrowthRiskModel.comparative_statics_over_delta (lines 153-164):
each step assigns self.delta_ = d in place and appends self.summary().  The
result is the final (mutated) model state paired with the collected rows. -/
noncomputable def SimpleAIGrowthRiskModel.comparative_statics_over_delta
    (M : SimpleAIGrowthRiskModel) (deltas : List ℝ) :
    SimpleAIGrowthRiskModel × List SummaryRow :=
  deltas.foldl
    (fun acc d =>
      let M2 : SimpleAIGrowthRiskModel := { acc.1 with delta_ := d }
      (M2, acc.2 ++ [M2.summary]))
    (M, [])

/-- SimpleAIGrowthRiskModel.comparative_statics_over_g (lines 166-175):
same in-place pattern, assigning self.g = g at each step. -/
noncomputable def SimpleAIGrowthRiskModel.comparative_statics_over_g
    (M : SimpleAIGrowthRiskModel) (gs : List ℝ) :
    SimpleAIGrowthRiskModel × List SummaryRow :=
  gs.foldl
    (fun acc d =>
      let M2 : SimpleAIGrowthRiskModel := { acc.1 with g := d }
      (M2, acc.2 ++ [M2.summary]))
    (M, [])

/-- Parameter state of a DynamicAIGrowthRiskModel instance
(jones_models.py, lines 183-205). -/
structure DynamicAIGrowthRiskModel where
  c0 : ℝ
  N0 : ℝ
  gamma : ℝ
  util : Utility
  rho_minus_b : ℝ
  g0 : ℝ
  m0 : ℝ

/-- DynamicAIGrowthRiskModel.welfare (lines 207-218):
N0*ubar/(rho_minus_b+m) + N0*c0^(1-gamma)/(1-gamma) / (rho_minus_b+m+(gamma-1)*g),
evaluated in Python's order: the first term's division, then the power, then
the division by (1-gamma), then the division by the second denominator.
The source performs no sign check on either denominator. -/
noncomputable def DynamicAIGrowthRiskModel.welfare
    (M : DynamicAIGrowthRiskModel) (g m : ℝ) : PyFloat :=
  if M.rho_minus_b + m = 0 then .error "ZeroDivisionError"
  else
    (pyPow M.c0 (1 - M.gamma)).bind fun p =>
      if M.gamma = 1 then .error "ZeroDivisionError"
      else if M.rho_minus_b + m + (M.gamma - 1) * g = 0 then .error "ZeroDivisionError"
      else
        .real (M.N0 * M.util.ubar / (M.rho_minus_b + m)
          + M.N0 * p / (1 - M.gamma) / (M.rho_minus_b + m + (M.gamma - 1) * g))

/-- DynamicAIGrowthRiskModel.delta_star (lines 220-225):
1 - welfare(g0,m0)/welfare(g_ai,m_ai), with both welfare calls evaluated
before the division (an exception in either propagates). -/
noncomputable def DynamicAIGrowthRiskModel.delta_star
    (M : DynamicAIGrowthRiskModel) (g_ai m_ai : ℝ) : PyFloat :=
  match M.welfare M.g0 M.m0, M.welfare g_ai m_ai with
  | .error e, _ => .error e
  | _, .error e => .error e
  | .real U0, .real Uai =>
    if Uai = 0 then .error "ZeroDivisionError" else .real (1 - U0 / Uai)
  | _, _ => .complex

/-- DynamicAIGrowthRiskModel.delta_star_singularity (lines 227-232):
1 - welfare(g0,m0) / (N0*ubar/(rho_minus_b+m_ai)). -/
noncomputable def DynamicAIGrowthRiskModel.delta_star_singularity
    (M : DynamicAIGrowthRiskModel) (m_ai : ℝ) : PyFloat :=
  (M.welfare M.g0 M.m0).bind fun U0 =>
    if M.rho_minus_b + m_ai = 0 then .error "ZeroDivisionError"
    else if M.N0 * M.util.ubar / (M.rho_minus_b + m_ai) = 0 then .error "ZeroDivisionError"
    else .real (1 - U0 / (M.N0 * M.util.ubar / (M.rho_minus_b + m_ai)))

/-- DynamicAIGrowthRiskModel.sweep_mortality (lines 234-241): a Python for
loop appending one row per grid value; an exception raised by delta_star
aborts the whole call. -/
noncomputable def DynamicAIGrowthRiskModel.sweep_mortality
    (M : DynamicAIGrowthRiskModel) (g_ai : ℝ) (m_vals : List ℝ) :
    Except String (List (ℝ × ℝ × PyFloat)) :=
  m_vals.foldlM
    (fun acc m_ai =>
      match M.delta_star g_ai m_ai with
      | .error e => Except.error e
      | d => Except.ok (acc ++ [(m_ai, g_ai, d)]))
    []

/-- DynamicAIGrowthRiskModel.sweep_growth (lines 243-250). -/
noncomputable def DynamicAIGrowthRiskModel.sweep_growth
    (M : DynamicAIGrowthRiskModel) (g_vals : List ℝ) (m_ai : ℝ) :
    Except String (List (ℝ × ℝ × PyFloat)) :=
  g_vals.foldlM
    (fun acc g_ai =>
      match M.delta_star g_ai m_ai with
      | .error e => Except.error e
      | d => Except.ok (acc ++ [(g_ai, m_ai, d)]))
    []

/-- The frozen FixedPrimitives dataclass
(cournot_shared_risk/__init__.py, lines 14-20). -/
structure FixedPrimitives where
  c0 : ℝ
  delta : ℝ
  gamma : ℝ
  token_floor : ℝ
  token_scale : ℝ

/-- The module-level FIXED instance (line 41) with the dataclass defaults. -/
noncomputable def FIXED : FixedPrimitives :=
  { c0 := 1, delta := 1 / 100, gamma := 2, token_floor := 10, token_scale := 150 }

/-- The frozen TreatmentArm dataclass (lines 23-29). -/
structure TreatmentArm where
  label : String
  kappa : ℝ
  omega : ℝ × ℝ
  g : ℝ × ℝ
  description : String

/-- hazard_components (lines 70-74): Q = omega1*T1 + omega2*T2 and
the derivative 1 + kappa*Q of Q + 0.5*kappa*Q^2. -/
noncomputable def hazard_components (T1 T2 : ℝ) (arm : TreatmentArm) : ℝ × ℝ :=
  (arm.omega.1 * T1 + arm.omega.2 * T2,
    1 + arm.kappa * (arm.omega.1 * T1 + arm.omega.2 * T2))

/-- survival_probability (lines 77-80): exp(-FIXED.delta * H) with
H = Q + 0.5*kappa*Q^2. -/
noncomputable def survival_probability (T1 T2 : ℝ) (arm : TreatmentArm) : ℝ :=
  Real.exp (-FIXED.delta *
    ((hazard_components T1 T2 arm).1
      + 1 / 2 * arm.kappa * (hazard_components T1 T2 arm).1 ^ 2))

/-- tokenise (lines 106-108): token_floor + token_scale * max(eu - min_eu, 0). -/
noncomputable def tokenise (expected_utility min_utility : ℝ) : ℝ :=
  FIXED.token_floor + FIXED.token_scale * max (expected_utility - min_utility) 0

/-- One step of the rotation in build_round_robin_schedule (line 127):
ids = [ids[0]] + [ids[-1]] + ids[1:-1].  (For a singleton list Python
evaluates this to [x, x]; the empty list never reaches this line.) -/
def rotateIds (ids : List Nat) : List Nat :=
  match ids with
  | [] => []
  | x :: rest => x :: rest.getLast?.getD x :: rest.dropLast

/-- One round of pairs in build_round_robin_schedule (line 125):
position i meets position n-1-i for i < n/2, where n is the participant
count captured before the loop. -/
def roundPairs (n : Nat) (ids : List Nat) : List (Nat × Nat) :=
  (List.range (n / 2)).map fun i => (ids.getD i 0, ids.getD (n - 1 - i) 0)

/-- The scheduling loop of build_round_robin_schedule (lines 124-127):
k remaining iterations over the current ids list. -/
def rrRounds (n : Nat) : Nat → List Nat → List (List (Nat × Nat))
  | 0, _ => []
  | k + 1, ids => roundPairs n ids :: rrRounds n k (rotateIds ids)

/-- build_round_robin_schedule (lines 119-128) after the initial shuffle:
the input list is the already-shuffled list of participant ids, and the
loop runs n-1 times. -/
def build_round_robin_schedule (ids : List Nat) : List (List (Nat × Nat)) :=
  rrRounds ids.length (ids.length - 1) ids

/-! Structural lemmas for the round-robin scheduler. -/

/-- Dropping all but one element of a nonempty list leaves its last element. -/
theorem drop_pred_length_eq_getLast :
    ∀ (l : List Nat) (h : l ≠ []), l.drop (l.length - 1) = [l.getLast h]
  | [_], _ => rfl
  | x :: y :: t, _ => by
    have ih := drop_pred_length_eq_getLast (y :: t) (List.cons_ne_nil y t)
    have h1 : (x :: y :: t).length - 1 = ((y :: t).length - 1) + 1 := by
      simp [List.length_cons]
    rw [h1, List.drop_succ_cons, ih, List.getLast_cons (List.cons_ne_nil y t)]

/-- The source's rotation step is a rotation of the tail: moving the tail's
last element to its front is List.rotate by length-1. -/
theorem rotateIds_cons (x : Nat) (ys : List Nat) (h : ys ≠ []) :
    rotateIds (x :: ys) = x :: ys.rotate (ys.length - 1) := by
  have hrw : rotateIds (x :: ys) = x :: ys.getLast?.getD x :: ys.dropLast := rfl
  rw [hrw, List.rotate_eq_drop_append_take (Nat.sub_le _ _),
    drop_pred_length_eq_getLast ys h, ← List.dropLast_eq_take,
    List.getLast?_eq_getLast ys h]
  rfl

/-- The ids list at the start of round r: the fixed head x followed by the
tail rotated r times (each rotation is by length-1). -/
def idsAt (x : Nat) (ys : List Nat) (r : Nat) : List Nat :=
  x :: ys.rotate ((ys.length - 1) * r)

theorem idsAt_length (x : Nat) (ys : List Nat) (r : Nat) :
    (idsAt x ys r).length = ys.length + 1 := by
  simp [idsAt]

theorem rotateIds_idsAt (x : Nat) (ys : List Nat) (h : ys ≠ []) (r : Nat) :
    rotateIds (idsAt x ys r) = idsAt x ys (r + 1) := by
  have hne : ys.rotate ((ys.length - 1) * r) ≠ [] := by
    intro hc
    apply h
    have hlen := List.length_rotate ys ((ys.length - 1) * r)
    rw [hc] at hlen
    exact List.eq_nil_of_length_eq_zero hlen.symm
  rw [idsAt, rotateIds_cons x _ hne, List.length_rotate, List.rotate_rotate]
  have harith : (ys.length - 1) * r + (ys.length - 1) = (ys.length - 1) * (r + 1) := by
    ring
  rw [harith]
  rfl

/-- Closed form of the scheduling loop: starting at round r with k rounds to
go, it emits the rounds r, r+1, ..., r+k-1. -/
theorem rrRounds_eq_map (n : Nat) (x : Nat) (ys : List Nat) (h : ys ≠ []) :
    ∀ (k r : Nat), rrRounds n k (idsAt x ys r)
      = (List.range k).map (fun j => roundPairs n (idsAt x ys (r + j)))
  | 0, _ => rfl
  | k + 1, r => by
    have step : rrRounds n (k + 1) (idsAt x ys r)
        = roundPairs n (idsAt x ys r) :: rrRounds n k (rotateIds (idsAt x ys r)) := rfl
    rw [step, rotateIds_idsAt x ys h r, rrRounds_eq_map n x ys h k (r + 1),
      List.range_succ_eq_map, List.map_cons, List.map_map]
    refine congrArg₂ _ (by rw [Nat.add_zero]) ?_
    refine List.map_congr_left fun j _ => ?_
    show roundPairs n (idsAt x ys (r + 1 + j)) = roundPairs n (idsAt x ys (r + (j + 1)))
    have : r + 1 + j = r + (j + 1) := by omega
    rw [this]

/-- Closed form of build_round_robin_schedule on a nonempty input. -/
theorem build_round_robin_schedule_eq_map (x : Nat) (ys : List Nat) (h : ys ≠ []) :
    build_round_robin_schedule (x :: ys)
      = (List.range ys.length).map
          (fun j => roundPairs (ys.length + 1) (idsAt x ys j)) := by
  have h0 : idsAt x ys 0 = x :: ys := by
    simp [idsAt]
  unfold build_round_robin_schedule
  rw [show (x :: ys).length = ys.length + 1 from rfl,
    show ys.length + 1 - 1 = ys.length from by omega, ← h0,
    rrRounds_eq_map (ys.length + 1) x ys h ys.length 0]
  refine List.map_congr_left fun j _ => ?_
  rw [Nat.zero_add]

theorem roundPairs_length (n : Nat) (l : List Nat) : (roundPairs n l).length = n / 2 := by
  simp [roundPairs]

/-- The index pattern of one round, {i, n-1-i} for i < n/2, enumerates every
position 0..n-1 exactly once when n is even. -/
theorem pairIndices_perm (n : Nat) (hn : n % 2 = 0) :
    (((List.range (n / 2)).map (fun i => [i, n - 1 - i])).flatten).Perm (List.range n) := by
  refine (List.perm_ext_iff_of_nodup ?_ (List.nodup_range n)).mpr ?_
  · refine List.nodup_flatten.mpr ⟨?_, ?_⟩
    · intro bl hbl
      obtain ⟨i, hi, rfl⟩ := List.mem_map.mp hbl
      rw [List.mem_range] at hi
      simp only [List.nodup_cons, List.mem_singleton, List.nodup_cons, List.not_mem_nil,
        not_false_eq_true, and_true, List.nodup_nil]
      omega
    · rw [List.pairwise_map, List.pairwise_iff_getElem]
      intro a b ha hb hab
      rw [List.length_range] at ha hb
      rw [List.getElem_range, List.getElem_range]
      intro t ht1 ht2
      simp only [List.mem_cons, List.mem_singleton, List.not_mem_nil, or_false] at ht1 ht2
      omega
  · intro j
    simp only [List.mem_flatten, List.mem_map, List.mem_range]
    constructor
    · rintro ⟨bl, ⟨i, hi, rfl⟩, hj⟩
      simp only [List.mem_cons, List.mem_singleton, List.not_mem_nil, or_false] at hj
      omega
    · intro hj
      by_cases hcase : j < n / 2
      · exact ⟨[j, n - 1 - j], ⟨j, hcase, rfl⟩, by simp⟩
      · refine ⟨[n - 1 - j, n - 1 - (n - 1 - j)], ⟨n - 1 - j, by omega, rfl⟩, ?_⟩
        have : n - 1 - (n - 1 - j) = j := by omega
        rw [this]
        simp

/-- Reading a list back off the index range reproduces the list. -/
theorem map_range_getD (l : List Nat) :
    (List.range l.length).map (fun i => l.getD i 0) = l := by
  refine List.ext_getElem (by simp) ?_
  intro i h1 h2
  rw [List.getElem_map]
  rw [List.getElem_range]
  exact List.getD_eq_getElem l 0 h2

/-- The two endpoints of the pairs of one round, flattened, are a
permutation of the round's ids list (n even, list of length n). -/
theorem roundElems_perm (n : Nat) (hn : n % 2 = 0) (l : List Nat) (hl : l.length = n) :
    (((roundPairs n l).map (fun p => [p.1, p.2])).flatten).Perm l := by
  have h1 : ((roundPairs n l).map (fun p => [p.1, p.2])).flatten
      = (((List.range (n / 2)).map (fun i => [i, n - 1 - i])).flatten).map
          (fun j => l.getD j 0) := by
    rw [roundPairs, List.map_map, List.map_flatten, List.map_map]
    rfl
  have h2 := (pairIndices_perm n hn).map (fun j => l.getD j 0)
  have h3 : (List.range n).map (fun j => l.getD j 0) = l := by
    rw [← hl]
    exact map_range_getD l
  rw [h1]
  refine h2.trans ?_
  rw [h3]

/-- Element access in the round-r ids list: position 0 is the fixed head. -/
theorem idsAt_getD_zero (x : Nat) (ys : List Nat) (r : Nat) :
    (idsAt x ys r).getD 0 0 = x := rfl

/-- Element access in the round-r ids list: position i+1 is the tail element
at rotated index (i + (length-1)*r) mod length. -/
theorem idsAt_getD_succ (x : Nat) (ys : List Nat) (r i : Nat) (h : i < ys.length) :
    (idsAt x ys r).getD (i + 1) 0
      = ys.getD ((i + (ys.length - 1) * r) % ys.length) 0 := by
  have h1 : i < (ys.rotate ((ys.length - 1) * r)).length := by
    rw [List.length_rotate]
    exact h
  have h2 : (i + (ys.length - 1) * r) % ys.length < ys.length :=
    Nat.mod_lt _ (by omega)
  have hcons : (idsAt x ys r).getD (i + 1) 0
      = (ys.rotate ((ys.length - 1) * r)).getD i 0 := rfl
  rw [hcons, List.getD_eq_getElem _ _ h1, List.getD_eq_getElem _ _ h2]
  exact List.getElem_rotate ys _ i h1

/-- The head id x never equals a tail element. -/
theorem x_ne_getD (x : Nat) (ys : List Nat) (hx : x ∉ ys) (k : Nat)
    (hk : k < ys.length) : x ≠ ys.getD k 0 := by
  intro h
  apply hx
  rw [h, List.getD_eq_getElem _ _ hk]
  exact List.getElem_mem hk

/-- On a duplicate-free tail, equal elements force equal indices. -/
theorem getD_inj (ys : List Nat) (hnd : ys.Nodup) (k k2 : Nat)
    (hk : k < ys.length) (hk2 : k2 < ys.length)
    (h : ys.getD k 0 = ys.getD k2 0) : k = k2 := by
  rw [List.getD_eq_getElem _ _ hk, List.getD_eq_getElem _ _ hk2] at h
  exact (List.Nodup.getElem_inj_iff hnd).mp h

/-- Coprimality of a positive number with its predecessor. -/
theorem coprime_pred (L : Nat) (hL : 0 < L) : Nat.Coprime L (L - 1) := by
  have h3 : 1 + (L - 1) = L := by omega
  have h4 := (Nat.coprime_add_self_left (m := 1) (n := L - 1)).mpr (Nat.coprime_one_left _)
  rwa [h3] at h4

/-- Round recovery from the pair-index sum: for odd modulus L, the residue
of L-2 + 2*(L-1)*r mod L determines r among 0..L-1. -/
theorem modeq_round_cancel (L r r2 : Nat) (hodd : L % 2 = 1) (hr : r < L) (hr2 : r2 < L)
    (h : (L - 2 + ((L - 1) * r + (L - 1) * r)) % L
        = (L - 2 + ((L - 1) * r2 + (L - 1) * r2)) % L) : r = r2 := by
  have h1 : Nat.ModEq L ((L - 1) * r + (L - 1) * r) ((L - 1) * r2 + (L - 1) * r2) :=
    Nat.ModEq.add_left_cancel' (L - 2) h
  have e1 : (L - 1) * r + (L - 1) * r = 2 * (L - 1) * r := by ring
  have e2 : (L - 1) * r2 + (L - 1) * r2 = 2 * (L - 1) * r2 := by ring
  rw [e1, e2] at h1
  have hcop : Nat.gcd L (2 * (L - 1)) = 1 := by
    have hc2 : Nat.Coprime L 2 := Nat.coprime_two_right.mpr (Nat.odd_iff.mpr hodd)
    exact Nat.Coprime.mul_right hc2 (coprime_pred L (by omega))
  have h5 : Nat.ModEq L r r2 := Nat.ModEq.cancel_left_of_coprime hcop h1
  have h6 : r % L = r2 % L := h5
  rwa [Nat.mod_eq_of_lt hr, Nat.mod_eq_of_lt hr2] at h6

/-- Round recovery from the head id's partner index: the residue of
L-1 + (L-1)*r mod L determines r among 0..L-1. -/
theorem modeq_partner_cancel (L r r2 : Nat) (hr : r < L) (hr2 : r2 < L)
    (h : (L - 1 + (L - 1) * r) % L = (L - 1 + (L - 1) * r2) % L) : r = r2 := by
  have h1 : Nat.ModEq L ((L - 1) * r) ((L - 1) * r2) :=
    Nat.ModEq.add_left_cancel' (L - 1) h
  have h5 : Nat.ModEq L r r2 :=
    Nat.ModEq.cancel_left_of_coprime (coprime_pred L (by omega)) h1
  have h6 : r % L = r2 % L := h5
  rwa [Nat.mod_eq_of_lt hr, Nat.mod_eq_of_lt hr2] at h6

/-- Pairs drawn from two different rounds of the circle method never
coincide, in either orientation: no unordered pair is scheduled twice. -/
theorem no_repeat_pairs (x : Nat) (ys : List Nat) (n : Nat)
    (hx : x ∉ ys) (hnd : ys.Nodup)
    (hlen : ys.length = n - 1) (hn : 2 ≤ n) (heven : n % 2 = 0)
    (r r2 : Nat) (hr : r < n - 1) (hr2 : r2 < n - 1) (hne : r ≠ r2)
    (p q : Nat × Nat)
    (hp : p ∈ roundPairs n (idsAt x ys r)) (hq : q ∈ roundPairs n (idsAt x ys r2)) :
    p ≠ q ∧ p ≠ (q.2, q.1) := by
  rw [roundPairs, List.mem_map] at hp hq
  obtain ⟨i, hi, hpi⟩ := hp
  obtain ⟨i2, hi2, hqi⟩ := hq
  rw [List.mem_range] at hi hi2
  subst hpi
  subst hqi
  have hL : 0 < ys.length := by omega
  cases i with
  | zero =>
    rw [idsAt_getD_zero x ys r,
      show n - 1 - 0 = (ys.length - 1) + 1 from by omega,
      idsAt_getD_succ x ys r (ys.length - 1) (by omega)]
    cases i2 with
    | zero =>
      rw [idsAt_getD_zero x ys r2,
        show n - 1 - 0 = (ys.length - 1) + 1 from by omega,
        idsAt_getD_succ x ys r2 (ys.length - 1) (by omega)]
      constructor
      · intro hEq
        rw [Prod.mk.injEq] at hEq
        have hA := getD_inj ys hnd _ _ (Nat.mod_lt _ hL) (Nat.mod_lt _ hL) hEq.2
        exact hne (modeq_partner_cancel ys.length r r2 (by omega) (by omega) hA)
      · intro hEq
        rw [Prod.mk.injEq] at hEq
        exact x_ne_getD x ys hx _ (Nat.mod_lt _ hL) hEq.1
    | succ j2 =>
      rw [idsAt_getD_succ x ys r2 j2 (by omega),
        show n - 1 - (j2 + 1) = (ys.length - 2 - j2) + 1 from by omega,
        idsAt_getD_succ x ys r2 (ys.length - 2 - j2) (by omega)]
      constructor
      · intro hEq
        rw [Prod.mk.injEq] at hEq
        exact x_ne_getD x ys hx _ (Nat.mod_lt _ hL) hEq.1
      · intro hEq
        rw [Prod.mk.injEq] at hEq
        exact x_ne_getD x ys hx _ (Nat.mod_lt _ hL) hEq.1
  | succ j =>
    rw [idsAt_getD_succ x ys r j (by omega),
      show n - 1 - (j + 1) = (ys.length - 2 - j) + 1 from by omega,
      idsAt_getD_succ x ys r (ys.length - 2 - j) (by omega)]
    cases i2 with
    | zero =>
      rw [idsAt_getD_zero x ys r2,
        show n - 1 - 0 = (ys.length - 1) + 1 from by omega,
        idsAt_getD_succ x ys r2 (ys.length - 1) (by omega)]
      constructor
      · intro hEq
        rw [Prod.mk.injEq] at hEq
        exact x_ne_getD x ys hx _ (Nat.mod_lt _ hL) hEq.1.symm
      · intro hEq
        rw [Prod.mk.injEq] at hEq
        exact x_ne_getD x ys hx _ (Nat.mod_lt _ hL) hEq.2.symm
    | succ j2 =>
      rw [idsAt_getD_succ x ys r2 j2 (by omega),
        show n - 1 - (j2 + 1) = (ys.length - 2 - j2) + 1 from by omega,
        idsAt_getD_succ x ys r2 (ys.length - 2 - j2) (by omega)]
      constructor
      · intro hEq
        rw [Prod.mk.injEq] at hEq
        have hA := getD_inj ys hnd _ _ (Nat.mod_lt _ hL) (Nat.mod_lt _ hL) hEq.1
        have hB := getD_inj ys hnd _ _ (Nat.mod_lt _ hL) (Nat.mod_lt _ hL) hEq.2
        have hsum : (j + (ys.length - 1) * r + (ys.length - 2 - j + (ys.length - 1) * r))
              % ys.length
            = (j2 + (ys.length - 1) * r2 + (ys.length - 2 - j2 + (ys.length - 1) * r2))
              % ys.length := by
          rw [Nat.add_mod, hA, hB, ← Nat.add_mod]
        rw [show j + (ys.length - 1) * r + (ys.length - 2 - j + (ys.length - 1) * r)
              = ys.length - 2 + ((ys.length - 1) * r + (ys.length - 1) * r) from by omega,
          show j2 + (ys.length - 1) * r2 + (ys.length - 2 - j2 + (ys.length - 1) * r2)
              = ys.length - 2 + ((ys.length - 1) * r2 + (ys.length - 1) * r2) from by omega]
          at hsum
        exact hne (modeq_round_cancel ys.length r r2 (by omega) (by omega) (by omega) hsum)
      · intro hEq
        rw [Prod.mk.injEq] at hEq
        have hA := getD_inj ys hnd _ _ (Nat.mod_lt _ hL) (Nat.mod_lt _ hL) hEq.1
        have hB := getD_inj ys hnd _ _ (Nat.mod_lt _ hL) (Nat.mod_lt _ hL) hEq.2
        have hsum : (j + (ys.length - 1) * r + (ys.length - 2 - j + (ys.length - 1) * r))
              % ys.length
            = (ys.length - 2 - j2 + (ys.length - 1) * r2 + (j2 + (ys.length - 1) * r2))
              % ys.length := by
          rw [Nat.add_mod, hA, hB, ← Nat.add_mod]
        rw [show j + (ys.length - 1) * r + (ys.length - 2 - j + (ys.length - 1) * r)
              = ys.length - 2 + ((ys.length - 1) * r + (ys.length - 1) * r) from by omega,
          show ys.length - 2 - j2 + (ys.length - 1) * r2 + (j2 + (ys.length - 1) * r2)
              = ys.length - 2 + ((ys.length - 1) * r2 + (ys.length - 1) * r2) from by omega]
          at hsum
        exact hne (modeq_round_cancel ys.length r r2 (by omega) (by omega) (by omega) hsum)

/-- C2: for every even number n of participant ids, build_round_robin_schedule
produces exactly n-1 rounds; each round consists of exactly n/2
pairwise-disjoint pairs that together cover all n ids (their flattened
endpoints are a permutation of the ids); and no unordered pair of ids
appears in two different rounds. -/
theorem C2_round_robin_schedule (ids : List Nat) (n : Nat)
    (hlen : ids.length = n) (hnd : ids.Nodup) (heven : n % 2 = 0) :
    (build_round_robin_schedule ids).length = n - 1 ∧
    (∀ round ∈ build_round_robin_schedule ids,
      round.length = n / 2 ∧ ((round.map fun p => [p.1, p.2]).flatten).Perm ids) ∧
    (build_round_robin_schedule ids).Pairwise
      (fun round1 round2 => ∀ p ∈ round1, ∀ q ∈ round2, p ≠ q ∧ p ≠ (q.2, q.1)) := by
  cases ids with
  | nil =>
    have hn0 : n = 0 := by simpa using hlen.symm
    subst hn0
    refine ⟨rfl, ?_, ?_⟩
    · intro round hround
      simp [build_round_robin_schedule, rrRounds] at hround
    · simp [build_round_robin_schedule, rrRounds]
  | cons x ys =>
    obtain ⟨hxmem, hndys⟩ := List.nodup_cons.mp hnd
    have hlen2 : ys.length + 1 = n := by simpa using hlen
    have hys : ys ≠ [] := by
      intro hc
      subst hc
      simp at hlen2
      omega
    have hn2 : 2 ≤ n := by
      have : ys.length ≠ 0 := fun hc => hys (List.eq_nil_of_length_eq_zero hc)
      omega
    have hlenys : ys.length = n - 1 := by omega
    rw [build_round_robin_schedule_eq_map x ys hys]
    simp only [hlen2]
    simp only [hlenys]
    refine ⟨by simp, ?_, ?_⟩
    · intro round hround
      obtain ⟨j, hj, rfl⟩ := List.mem_map.mp hround
      rw [List.mem_range] at hj
      refine ⟨roundPairs_length n _, ?_⟩
      have hperm := roundElems_perm n heven (idsAt x ys j) (by rw [idsAt_length]; omega)
      exact hperm.trans (List.Perm.cons x (List.rotate_perm ys _))
    · rw [List.pairwise_map, List.pairwise_iff_getElem]
      intro a b ha hb hab
      rw [List.length_range] at ha hb
      rw [List.getElem_range, List.getElem_range]
      intro p hp q hq
      exact no_repeat_pairs x ys n hxmem hndys hlenys hn2 heven a b (by omega) (by omega)
        (by omega) p q hp hq

/-- Witness for C2 at the concrete session of scenario C: four participants
produce exactly three rounds. -/
theorem C2_round_robin_schedule_witness :
    (build_round_robin_schedule [1, 2, 3, 4]).length = 4 - 1 :=
  (C2_round_robin_schedule [1, 2, 3, 4] 4 rfl (by decide) (by decide)).1

/-! Claims about the numeric engine. -/

/-- A SimpleAIGrowthRiskModel parameterisation with gamma = 3 and ubar = -1:
inner = (1/ubar)*(g/delta + 1/(gamma-1)) = -(10 + 1/2) < 0, and the exponent
1/(gamma-1) = 1/2 is fractional. -/
noncomputable def c1FailModel : SimpleAIGrowthRiskModel :=
  { c0 := 1, g := 1 / 10, delta_ := 1 / 100, gamma := 3, util := { gamma := 3, ubar := -1 } }

/-- C1: on a parameterisation with gamma different from 1 whose inner term is
negative, c_star does not raise a domain error naming the offending
parameter: it silently returns a complex number (Python float power with a
negative base and fractional exponent), contradicting the spec's
error-handling requirement. -/
theorem C1_c_star_silently_complex :
    SimpleAIGrowthRiskModel.c_star c1FailModel = PyFloat.complex := by
  rw [SimpleAIGrowthRiskModel.c_star]
  simp only [c1FailModel]
  rw [if_neg (by norm_num), if_neg (by norm_num), if_neg (by norm_num), pyPow,
    if_neg (by norm_num), if_neg (by norm_num), if_neg (by norm_num)]

/-- C4: calibration round-trip.  For every c0 > 0, gamma and target_v, in
both the gamma = 1 and gamma different-from-1 branches, calibrating ubar
from target_v and then evaluating v(c0) under Utility(gamma, ubar) returns
exactly target_v (an exact identity in the real-number model). -/
theorem C4_calibration_round_trip (c0 gamma target_v : ℝ) (hc0 : 0 < c0) :
    (calibrate_ubar_from_v c0 gamma target_v).bind
      (fun ub => Utility.v { gamma := gamma, ubar := ub } c0) = PyFloat.real target_v := by
  by_cases hg : gamma = 1
  · subst hg
    rw [calibrate_ubar_from_v, if_pos rfl, pyLog, if_pos hc0]
    simp only [PyFloat.bind]
    rw [Utility.v, if_pos rfl, Utility.u, if_pos rfl, pyLog, if_pos hc0]
    simp only [PyFloat.bind]
    congr 1
    ring
  · have hp : (0:ℝ) < c0 ^ (gamma - 1) := Real.rpow_pos_of_pos hc0 _
    rw [calibrate_ubar_from_v, if_neg hg, pyPow, if_pos hc0]
    simp only [PyFloat.bind]
    rw [if_neg hp.ne']
    simp only [PyFloat.bind, Utility.v]
    rw [if_neg hg, pyPow, if_pos hc0]
    simp only [PyFloat.bind]
    congr 1
    rw [div_mul_cancel₀ _ hp.ne']
    ring

/-- Witness for C4 at c0 = 1, gamma = 2, target_v = 6 (the defaults used by
the repository's scenario A). -/
theorem C4_calibration_round_trip_witness :
    (calibrate_ubar_from_v 1 2 6).bind
      (fun ub => Utility.v { gamma := 2, ubar := ub } 1) = PyFloat.real 6 :=
  C4_calibration_round_trip 1 2 6 (by norm_num)

/-- C5: tokenisation.  Given a nonempty menu of expected utilities with
minimum min_eu, the option whose expected utility equals min_eu is paid
exactly token_floor, and for a fixed min_eu the tokenised payoff is
monotone non-decreasing in expected utility. -/
theorem C5_tokenisation (menu : List ℝ) (min_eu : ℝ) (hmin : menu.min? = some min_eu) :
    (∀ eu ∈ menu, eu = min_eu → tokenise eu min_eu = FIXED.token_floor) ∧
    (∀ e1 e2 : ℝ, e1 ≤ e2 → tokenise e1 min_eu ≤ tokenise e2 min_eu) := by
  constructor
  · intro eu _ heu
    subst heu
    simp [tokenise]
  · intro e1 e2 h12
    simp only [tokenise, FIXED]
    have hmax : max (e1 - min_eu) 0 ≤ max (e2 - min_eu) 0 :=
      max_le_max (by linarith) le_rfl
    nlinarith [hmax]

/-- Witness for C5 on the concrete menu [3, 5]: the minimum option pays the
floor. -/
theorem C5_tokenisation_witness : tokenise 3 3 = FIXED.token_floor :=
  (C5_tokenisation [3, 5] 3 (by norm_num [List.min?])).1 3 (by simp) rfl

/-- C10: for every pair of real inputs, tokenise returns at least
token_floor, and returns exactly token_floor whenever the expected utility
is at or below the menu minimum, because the shifted term is clamped at
zero before scaling. -/
theorem C10_tokenise_floor_clamp (eu min_u : ℝ) :
    FIXED.token_floor ≤ tokenise eu min_u ∧
    (eu ≤ min_u → tokenise eu min_u = FIXED.token_floor) := by
  constructor
  · simp only [tokenise, FIXED]
    nlinarith [le_max_right (eu - min_u) (0:ℝ)]
  · intro h
    simp only [tokenise]
    rw [max_eq_right (by linarith : eu - min_u ≤ 0)]
    simp

/-- Witness for C10 at an input strictly below the minimum. -/
theorem C10_tokenise_floor_clamp_witness : tokenise 1 2 = FIXED.token_floor :=
  (C10_tokenise_floor_clamp 1 2).2 (by norm_num)

/-- The first treatment arm of the TREATMENTS catalogue (lines 43-50). -/
noncomputable def armLowCurvature : TreatmentArm :=
  { label := "Low curvature", kappa := 1 / 10, omega := (1, 1), g := (1 / 10, 1 / 10),
    description := "Benchmark hazard curvature with symmetric weights" }

/-- C6: shared-hazard survival monotonicity.  For kappa and the weights
nonnegative and nonnegative runtimes, increasing either runtime never
increases survival; with strictly positive weights, strictly increasing T1
strictly decreases survival (the fixed delta is 1/100 > 0). -/
theorem C6_survival_monotone (arm : TreatmentArm) (T1 T1' T2 T2' : ℝ)
    (hk : 0 ≤ arm.kappa) (hw1 : 0 ≤ arm.omega.1) (hw2 : 0 ≤ arm.omega.2)
    (hT1 : 0 ≤ T1) (hT2 : 0 ≤ T2) :
    (T1 ≤ T1' → survival_probability T1' T2 arm ≤ survival_probability T1 T2 arm) ∧
    (T2 ≤ T2' → survival_probability T1 T2' arm ≤ survival_probability T1 T2 arm) ∧
    (0 < arm.omega.1 → 0 < arm.omega.2 → T1 < T1' →
      survival_probability T1' T2 arm < survival_probability T1 T2 arm) := by
  have hQ0 : 0 ≤ arm.omega.1 * T1 + arm.omega.2 * T2 :=
    add_nonneg (mul_nonneg hw1 hT1) (mul_nonneg hw2 hT2)
  refine ⟨?_, ?_, ?_⟩
  · intro hT
    have hQle : arm.omega.1 * T1 + arm.omega.2 * T2
        ≤ arm.omega.1 * T1' + arm.omega.2 * T2 := by nlinarith
    simp only [survival_probability, hazard_components, FIXED]
    apply Real.exp_le_exp.mpr
    nlinarith [mul_nonneg hk (show (0:ℝ) ≤ (arm.omega.1 * T1' + arm.omega.2 * T2) ^ 2
      - (arm.omega.1 * T1 + arm.omega.2 * T2) ^ 2 by nlinarith)]
  · intro hT
    have hQle : arm.omega.1 * T1 + arm.omega.2 * T2
        ≤ arm.omega.1 * T1 + arm.omega.2 * T2' := by nlinarith
    simp only [survival_probability, hazard_components, FIXED]
    apply Real.exp_le_exp.mpr
    nlinarith [mul_nonneg hk (show (0:ℝ) ≤ (arm.omega.1 * T1 + arm.omega.2 * T2') ^ 2
      - (arm.omega.1 * T1 + arm.omega.2 * T2) ^ 2 by nlinarith)]
  · intro hw1p hw2p hT
    have hQlt : arm.omega.1 * T1 + arm.omega.2 * T2
        < arm.omega.1 * T1' + arm.omega.2 * T2 := by nlinarith
    simp only [survival_probability, hazard_components, FIXED]
    apply Real.exp_lt_exp.mpr
    nlinarith [mul_nonneg hk (show (0:ℝ) ≤ (arm.omega.1 * T1' + arm.omega.2 * T2) ^ 2
      - (arm.omega.1 * T1 + arm.omega.2 * T2) ^ 2 by nlinarith)]

/-- Witness for C6 on the Low curvature arm: raising T1 from 0 to 1 does not
increase survival. -/
theorem C6_survival_monotone_witness :
    survival_probability 1 0 armLowCurvature ≤ survival_probability 0 0 armLowCurvature :=
  (C6_survival_monotone armLowCurvature 0 1 0 0 (by norm_num [armLowCurvature])
    (by norm_num [armLowCurvature]) (by norm_num [armLowCurvature]) le_rfl le_rfl).1
    (by norm_num)

/-- Helper for last-element bookkeeping of a sweep's grid. -/
theorem getLast_getD_cons (ds : List ℝ) (d z : ℝ) :
    ((d :: ds).getLast?).getD z = (ds.getLast?).getD d := by
  cases ds with
  | nil => rfl
  | cons e es =>
    rw [List.getLast?_cons_cons]
    obtain ⟨a, ha⟩ : ∃ a, (e :: es).getLast? = some a :=
      ⟨(e :: es).getLast (by simp), List.getLast?_eq_getLast _ _⟩
    rw [ha]
    rfl

/-- Closed form of the delta sweep's foldl: the final state is the input
model with delta_ overwritten by the last grid value, and the rows are the
pure per-grid-point summaries appended to the accumulator. -/
theorem sweep_delta_foldl (deltas : List ℝ) :
    ∀ (M : SimpleAIGrowthRiskModel) (acc : List SummaryRow),
    deltas.foldl
      (fun acc2 d =>
        let M2 : SimpleAIGrowthRiskModel := { acc2.1 with delta_ := d }
        (M2, acc2.2 ++ [M2.summary]))
      (M, acc)
    = ({ M with delta_ := (deltas.getLast?).getD M.delta_ },
        acc ++ deltas.map fun d =>
          SimpleAIGrowthRiskModel.summary { M with delta_ := d }) := by
  induction deltas with
  | nil =>
    intro M acc
    simp
  | cons d ds ih =>
    intro M acc
    rw [List.foldl_cons]
    rw [ih { M with delta_ := d } (acc ++ [SimpleAIGrowthRiskModel.summary { M with delta_ := d }])]
    rw [getLast_getD_cons, List.map_cons, List.append_assoc]
    rfl

/-- Closed form of the growth sweep's foldl. -/
theorem sweep_g_foldl (gs : List ℝ) :
    ∀ (M : SimpleAIGrowthRiskModel) (acc : List SummaryRow),
    gs.foldl
      (fun acc2 d =>
        let M2 : SimpleAIGrowthRiskModel := { acc2.1 with g := d }
        (M2, acc2.2 ++ [M2.summary]))
      (M, acc)
    = ({ M with g := (gs.getLast?).getD M.g },
        acc ++ gs.map fun d =>
          SimpleAIGrowthRiskModel.summary { M with g := d }) := by
  induction gs with
  | nil =>
    intro M acc
    simp
  | cons d ds ih =>
    intro M acc
    rw [List.foldl_cons]
    rw [ih { M with g := d } (acc ++ [SimpleAIGrowthRiskModel.summary { M with g := d }])]
    rw [getLast_getD_cons, List.map_cons, List.append_assoc]
    rfl

/-- C3 amended: each grid-point row of a comparative-statics sweep equals
the pure summary of a fresh model carrying that grid value (so outputs are
point-independent), but the sweep does mutate the model in place: the final
model state has the swept field overwritten by the last grid value rather
than its pre-sweep value. -/
theorem C3_sweep_characterisation (M : SimpleAIGrowthRiskModel) (deltas gs : List ℝ) :
    M.comparative_statics_over_delta deltas
      = ({ M with delta_ := (deltas.getLast?).getD M.delta_ },
          deltas.map fun d => SimpleAIGrowthRiskModel.summary { M with delta_ := d }) ∧
    M.comparative_statics_over_g gs
      = ({ M with g := (gs.getLast?).getD M.g },
          gs.map fun d => SimpleAIGrowthRiskModel.summary { M with g := d }) := by
  constructor
  · rw [SimpleAIGrowthRiskModel.comparative_statics_over_delta, sweep_delta_foldl]
    rw [List.nil_append]
  · rw [SimpleAIGrowthRiskModel.comparative_statics_over_g, sweep_g_foldl]
    rw [List.nil_append]

/-- The scenario-A parameterisation: c0 = 1, g = 0.10, delta = 0.01,
gamma = 2, ubar = 7 (the value calibrate_ubar_from_v(1, 2, 6) produces). -/
noncomputable def scenarioAModel : SimpleAIGrowthRiskModel :=
  { c0 := 1, g := 1 / 10, delta_ := 1 / 100, gamma := 2, util := { gamma := 2, ubar := 7 } }

/-- C3 counterexample: sweeping delta over the one-point grid [0.02] leaves
the model's delta_ field equal to 0.02, not its pre-sweep value 0.01 — the
sweep mutates the model's parameter state. -/
theorem C3_sweep_mutates :
    (scenarioAModel.comparative_statics_over_delta [2 / 100]).1.delta_
      ≠ scenarioAModel.delta_ := by
  rw [(C3_sweep_characterisation scenarioAModel [2 / 100] []).1]
  simp only [scenarioAModel]
  norm_num [List.getLast?]

/-- Evaluation of c_star on the CRRA branch when the inner term is positive. -/
theorem c_star_eval_crra (M : SimpleAIGrowthRiskModel)
    (hd : M.delta_ ≠ 0) (hg1 : M.gamma ≠ 1) (hu : M.util.ubar ≠ 0)
    (hinner : 0 < (1 / M.util.ubar) * (M.g / M.delta_ + 1 / (M.gamma - 1))) :
    M.c_star = PyFloat.real
      (((1 / M.util.ubar) * (M.g / M.delta_ + 1 / (M.gamma - 1))) ^ (1 / (M.gamma - 1))) := by
  rw [SimpleAIGrowthRiskModel.c_star, if_neg hd, if_neg hg1, if_neg hu, pyPow, if_pos hinner]

/-- Evaluation of T_star when c_star is real, g is nonzero and the log
argument is positive. -/
theorem T_star_eval (M : SimpleAIGrowthRiskModel) (cs : ℝ)
    (hc : M.c_star = PyFloat.real cs) (hg : M.g ≠ 0) (hc0 : M.c0 ≠ 0)
    (hpos : 0 < cs / M.c0) :
    M.T_star = PyFloat.real ((1 / M.g) * Real.log (cs / M.c0)) := by
  rw [SimpleAIGrowthRiskModel.T_star, hc]
  simp only [PyFloat.bind]
  rw [if_neg hg, if_neg hc0, pyLog, if_pos hpos]

/-- Evaluation of total_extinction_prob when T_star is real. -/
theorem extinction_eval (M : SimpleAIGrowthRiskModel) (T : ℝ)
    (hT : M.T_star = PyFloat.real T) :
    M.total_extinction_prob = PyFloat.real (1 - Real.exp (-M.delta_ * T)) := by
  rw [SimpleAIGrowthRiskModel.total_extinction_prob, hT]
  simp only [PyFloat.bind]

/-- A fully in-domain parameterisation (c0 = 10 > 0, g = 0.10, delta = 0.01,
gamma = 2, ubar = 7, inner = 11/7 > 0) whose optimal consumption 11/7 sits
below c0, making T_star negative. -/
noncomputable def c7Model : SimpleAIGrowthRiskModel :=
  { c0 := 10, g := 1 / 10, delta_ := 1 / 100, gamma := 2, util := { gamma := 2, ubar := 7 } }

/-- On c7Model the closed-form c_star evaluates to 11/7. -/
theorem c7Model_c_star : SimpleAIGrowthRiskModel.c_star c7Model = PyFloat.real (11 / 7) := by
  rw [SimpleAIGrowthRiskModel.c_star]
  simp only [c7Model]
  rw [if_neg (by norm_num), if_neg (by norm_num), if_neg (by norm_num), pyPow,
    if_pos (by norm_num)]
  congr 1
  rw [show (1 : ℝ) / ((2:ℝ) - 1) = 1 by norm_num, Real.rpow_one]
  norm_num

/-- C7 counterexample: at the in-domain parameterisation c7Model
(c0 = 10 > 0, g = 0.1 not 0, delta = 0.01 > 0, inner = 11/7 > 0) the
solved extinction probability is a real number strictly below 0, so the
claimed bound 0 <= extinction_prob fails. -/
theorem C7_extinction_negative :
    SimpleAIGrowthRiskModel.total_extinction_prob c7Model
      = PyFloat.real (1 - Real.exp (-(1 / 10) * Real.log (11 / 70))) ∧
    1 - Real.exp (-(1 / 10) * Real.log (11 / 70)) < 0 := by
  constructor
  · have hT : c7Model.T_star = PyFloat.real (10 * Real.log (11 / 70)) := by
      rw [T_star_eval c7Model (11 / 7) c7Model_c_star (by norm_num [c7Model])
        (by norm_num [c7Model]) (by norm_num [c7Model])]
      congr 1
      norm_num [c7Model]
    rw [extinction_eval c7Model _ hT]
    congr 1
    simp only [c7Model]
    ring_nf
  · have hlog : Real.log (11 / 70) < 0 := Real.log_neg (by norm_num) (by norm_num)
    have hexp : (1:ℝ) < Real.exp (-(1 / 10) * Real.log (11 / 70)) :=
      Real.one_lt_exp_iff.mpr (by nlinarith)
    linarith

/-- C7 amended: whenever the solved T_star is a real value T with T >= 0 and
delta > 0, the extinction probability equals 1 - exp(-delta*T) and lies in
the half-open interval from 0 (inclusive) to 1 (exclusive); without the
T >= 0 restriction only the strict upper bound 1 holds. -/
theorem C7_extinction_bounds (M : SimpleAIGrowthRiskModel) (T : ℝ)
    (hT : M.T_star = PyFloat.real T) (hT0 : 0 ≤ T) (hd : 0 < M.delta_) :
    M.total_extinction_prob = PyFloat.real (1 - Real.exp (-M.delta_ * T)) ∧
    0 ≤ 1 - Real.exp (-M.delta_ * T) ∧ 1 - Real.exp (-M.delta_ * T) < 1 := by
  refine ⟨extinction_eval M T hT, ?_, ?_⟩
  · have h1 : Real.exp (-M.delta_ * T) ≤ 1 := Real.exp_le_one_iff.mpr (by nlinarith)
    linarith
  · have h2 : 0 < Real.exp (-M.delta_ * T) := Real.exp_pos _
    linarith

/-- On the scenario-A model the closed-form c_star evaluates to 11/7. -/
theorem scenarioAModel_c_star :
    SimpleAIGrowthRiskModel.c_star scenarioAModel = PyFloat.real (11 / 7) := by
  rw [SimpleAIGrowthRiskModel.c_star]
  simp only [scenarioAModel]
  rw [if_neg (by norm_num), if_neg (by norm_num), if_neg (by norm_num), pyPow,
    if_pos (by norm_num)]
  congr 1
  rw [show (1 : ℝ) / ((2:ℝ) - 1) = 1 by norm_num, Real.rpow_one]
  norm_num

/-- On the scenario-A model T_star evaluates to 10 * log(11/7), which is
nonnegative. -/
theorem scenarioAModel_T_star :
    SimpleAIGrowthRiskModel.T_star scenarioAModel
      = PyFloat.real (10 * Real.log (11 / 7)) := by
  rw [T_star_eval scenarioAModel (11 / 7) scenarioAModel_c_star (by norm_num [scenarioAModel])
    (by norm_num [scenarioAModel]) (by norm_num [scenarioAModel])]
  congr 1
  norm_num [scenarioAModel]

/-- Witness for the amended C7 at the scenario-A parameterisation. -/
theorem C7_extinction_bounds_witness :
    SimpleAIGrowthRiskModel.total_extinction_prob scenarioAModel
      = PyFloat.real (1 - Real.exp (-scenarioAModel.delta_ * (10 * Real.log (11 / 7)))) ∧
    0 ≤ 1 - Real.exp (-scenarioAModel.delta_ * (10 * Real.log (11 / 7))) ∧
    1 - Real.exp (-scenarioAModel.delta_ * (10 * Real.log (11 / 7))) < 1 :=
  C7_extinction_bounds scenarioAModel (10 * Real.log (11 / 7)) scenarioAModel_T_star
    (mul_nonneg (by norm_num) (Real.log_nonneg (by norm_num)))
    (by norm_num [scenarioAModel])

/-- A DynamicAIGrowthRiskModel parameterisation on which the second welfare
denominator is negative: rho_minus_b + m + (gamma-1)*g
= 0.01 + 0.01 + (2-1)*(-1) = -0.98 < 0. -/
noncomputable def c8Model : DynamicAIGrowthRiskModel :=
  { c0 := 1, N0 := 1, gamma := 2, util := { gamma := 2, ubar := 7 },
    rho_minus_b := 1 / 100, g0 := 1 / 50, m0 := 1 / 100 }

/-- C8: welfare's domain requirement rho_minus_b + m + (gamma-1)*g > 0 is
not enforced by the code: at the concrete input g = -1, m = 0.01 the
denominator is negative and welfare silently returns the finite real value
350 + 50/49 instead of failing with a domain error. -/
theorem C8_welfare_no_domain_check :
    c8Model.rho_minus_b + 1 / 100 + (c8Model.gamma - 1) * (-1) < 0 ∧
    DynamicAIGrowthRiskModel.welfare c8Model (-1) (1 / 100)
      = PyFloat.real (350 + 50 / 49) := by
  constructor
  · norm_num [c8Model]
  · rw [DynamicAIGrowthRiskModel.welfare]
    simp only [c8Model]
    rw [if_neg (by norm_num), pyPow, if_pos (by norm_num)]
    simp only [PyFloat.bind]
    rw [if_neg (by norm_num), if_neg (by norm_num)]
    congr 1
    rw [Real.one_rpow]
    norm_num

/-- Python's float power with exponent 0 always returns the real value of a
zeroth power (1, or 0^0 = 1), never an exception. -/
theorem pyPow_zero_exponent (b : ℝ) : ∃ v, pyPow b 0 = PyFloat.real v := by
  rw [pyPow]
  by_cases h1 : 0 < b
  · exact ⟨b ^ (0:ℝ), by rw [if_pos h1]⟩
  · by_cases h2 : b = 0
    · refine ⟨1, ?_⟩
      rw [if_neg h1, if_pos h2, if_neg (by norm_num), if_pos rfl]
    · refine ⟨b ^ (Int.floor (0:ℝ) : ℤ), ?_⟩
      rw [if_neg h1, if_neg h2, if_pos (by norm_num)]

/-- C9 amended: on any DynamicAIGrowthRiskModel instance with gamma = 1,
every welfare, delta_star and delta_star_singularity call raises a
division-by-zero error (welfare divides by 1-gamma with no log special
case), and every sweep over a nonempty grid fails the same way; only a
sweep over an empty grid returns without failing. -/
theorem C9_gamma_one_always_fails (M : DynamicAIGrowthRiskModel) (hg : M.gamma = 1) :
    (∀ g m : ℝ, M.welfare g m = PyFloat.error "ZeroDivisionError") ∧
    (∀ g_ai m_ai : ℝ, M.delta_star g_ai m_ai = PyFloat.error "ZeroDivisionError") ∧
    (∀ m_ai : ℝ, M.delta_star_singularity m_ai = PyFloat.error "ZeroDivisionError") ∧
    (∀ (g_ai : ℝ) (m_vals : List ℝ), m_vals ≠ [] →
      M.sweep_mortality g_ai m_vals = Except.error "ZeroDivisionError") ∧
    (∀ (g_vals : List ℝ) (m_ai : ℝ), g_vals ≠ [] →
      M.sweep_growth g_vals m_ai = Except.error "ZeroDivisionError") := by
  have hw : ∀ g m : ℝ, M.welfare g m = PyFloat.error "ZeroDivisionError" := by
    intro g m
    rw [DynamicAIGrowthRiskModel.welfare]
    by_cases h1 : M.rho_minus_b + m = 0
    · rw [if_pos h1]
    · rw [if_neg h1, show (1:ℝ) - M.gamma = 0 from by rw [hg]; ring]
      obtain ⟨v, hv⟩ := pyPow_zero_exponent M.c0
      rw [hv]
      simp only [PyFloat.bind]
      rw [if_pos hg]
  have hds : ∀ g_ai m_ai : ℝ, M.delta_star g_ai m_ai = PyFloat.error "ZeroDivisionError" := by
    intro g_ai m_ai
    simp only [DynamicAIGrowthRiskModel.delta_star, hw]
  have hsing : ∀ m_ai : ℝ,
      M.delta_star_singularity m_ai = PyFloat.error "ZeroDivisionError" := by
    intro m_ai
    simp only [DynamicAIGrowthRiskModel.delta_star_singularity, hw, PyFloat.bind]
  refine ⟨hw, hds, hsing, ?_, ?_⟩
  · intro g_ai m_vals hne
    cases m_vals with
    | nil => exact absurd rfl hne
    | cons a l =>
      rw [DynamicAIGrowthRiskModel.sweep_mortality, List.foldlM_cons]
      rw [hds]
      rfl
  · intro g_vals m_ai hne
    cases g_vals with
    | nil => exact absurd rfl hne
    | cons a l =>
      rw [DynamicAIGrowthRiskModel.sweep_growth, List.foldlM_cons]
      rw [hds]
      rfl

/-- A DynamicAIGrowthRiskModel instance constructed with gamma = 1 (such an
instance is constructible: calibrate_ubar_from_v has a log branch for it). -/
noncomputable def c9Model : DynamicAIGrowthRiskModel :=
  { c0 := 1, N0 := 1, gamma := 1, util := { gamma := 1, ubar := 6 },
    rho_minus_b := 1 / 100, g0 := 1 / 50, m0 := 1 / 100 }

/-- C9 counterexample to the claim as stated: on a gamma = 1 instance a
sweep call over the empty grid does not fail; it returns an empty row list
without ever calling delta_star. -/
theorem C9_empty_sweep_succeeds :
    c9Model.gamma = 1 ∧
    DynamicAIGrowthRiskModel.sweep_mortality c9Model (1 / 10) [] = Except.ok [] :=
  ⟨rfl, rfl⟩

/-- Witness for the amended C9: on the concrete gamma = 1 instance, welfare
raises a division-by-zero error. -/
theorem C9_gamma_one_always_fails_witness :
    DynamicAIGrowthRiskModel.welfare c9Model 0 0 = PyFloat.error "ZeroDivisionError" :=
  (C9_gamma_one_always_fails c9Model rfl).1 0 0
